import Mathlib

/-!
# mmap-io (N-API binding): shallow embedding of `src/mmap-io.cc`

The binding exposes four entry points (`map`, `advise`, `incore`, the private `sync`) that
convert JavaScript arguments, issue one or two calls of the `mman` family and translate the
outcome into a JavaScript value or exception.

Embedding conventions.

* `size_t` is the 64-bit unsigned word of an LP64 platform; arithmetic on it is taken
  modulo `2 ^ 64`.  `uint32_t` counters are taken modulo `2 ^ 32`.  `int` is 32-bit.
* A JavaScript number is represented by the integer it denotes (fractional and non-finite
  numbers are outside the embedding).  The N-API accessors follow the documented behaviour
  of `napi_get_value_int32` (low 32 bits) and `napi_get_value_int64` (clamped); applied to
  a value of another kind they fail, which ends the call with `Completion.napiError`.
* The operating system is an oracle `OS`: for every call it gives the return value and the
  `errno` left behind.  Each entry point returns the list of external calls it issued, in
  program order, together with its JavaScript completion.
* The numeric values of `MADV_*`, `MS_*`, `ENOSYS` and `MAP_FAILED` come from the system
  headers; the Linux values are used.
-/

namespace MmapIo

/-! ## Machine integers -/

/-- Number of values of a `size_t` (LP64). -/
def SIZE_MOD : Nat := 2 ^ 64

/-- Number of values of a `uint32_t`. -/
def UINT32_MOD : Nat := 2 ^ 32

/-- Unsigned `size_t` addition. -/
def sizeAdd (a b : Nat) : Nat := (a + b) % SIZE_MOD

/-- Unsigned `size_t` subtraction (operands already reduced). -/
def sizeSub (a b : Nat) : Nat := (a + SIZE_MOD - b) % SIZE_MOD

/-- Conversion of a signed integer to `size_t` (`static_cast<size_t>`). -/
def toSizeT (z : Int) : Nat := (z % (SIZE_MOD : Int)).toNat

/-- The `uint32_t` increment `x++`. -/
def u32Incr (x : Nat) : Nat := (x + 1) % UINT32_MOD

/-- Pointer plus a signed element offset (`char *` arithmetic in a flat 64-bit address space). -/
def ptrAdd (p : Nat) (off : Int) : Nat := (((p : Int) + off) % (SIZE_MOD : Int)).toNat

/-! ## System constants (Linux values) -/

/-- The pointer `(void *) -1` returned by a failing `mmap`. -/
def MAP_FAILED : Nat := 2 ^ 64 - 1

def MADV_NORMAL : Int := 0
def MADV_RANDOM : Int := 1
def MADV_SEQUENTIAL : Int := 2
def MADV_WILLNEED : Int := 3
def MADV_DONTNEED : Int := 4

def MS_ASYNC : Nat := 1
def MS_INVALIDATE : Nat := 2
def MS_SYNC : Nat := 4

def ENOSYS : Int := 38

/-! ## JavaScript values seen through N-API -/

/-- The `struct MMap` handed to the buffer finalizer as its hint. -/
structure MMap where
  data : Nat
  size : Nat
deriving DecidableEq, Repr

/-- A Node buffer over external memory: base address, length, and the hint of the
`do_mmap_cleanup` finalizer when one was registered at construction. -/
structure Buffer where
  data : Nat
  length : Nat
  hint : Option MMap
deriving DecidableEq, Repr

/-- The JavaScript values the binding distinguishes. `object` is an object that is not a
buffer; `array` is an array of numbers. -/
inductive JsValue where
  | undefined
  | null
  | boolean (b : Bool)
  | number (n : Int)
  | string (s : String)
  | object
  | buffer (b : Buffer)
  | array (elems : List Int)
deriving DecidableEq, Repr

namespace JsValue

def IsNumber : JsValue → Bool
  | number _ => true
  | _ => false

def IsObject : JsValue → Bool
  | object => true
  | buffer _ => true
  | array _ => true
  | _ => false

def IsUndefined : JsValue → Bool
  | undefined => true
  | _ => false

/-- Result of `As<Napi::Number>().Int32Value()`: the low 32 bits read as a signed integer;
`none` when the value is not a number (N-API reports `napi_number_expected`). -/
def Int32Value : JsValue → Option Int
  | number n => some ((n + 2 ^ 31) % 2 ^ 32 - 2 ^ 31)
  | _ => none

/-- Result of `As<Napi::Number>().Int64Value()`: the integer itself inside the signed 64-bit
range, clamped to `INT64_MIN` / `INT64_MAX` outside it; `none` when the value is not a
number. -/
def Int64Value : JsValue → Option Int
  | number n =>
    some (if n < -(2 ^ 63) then -(2 ^ 63) else if 2 ^ 63 ≤ n then 2 ^ 63 - 1 else n)
  | _ => none

/-- Result of `As<Napi::Boolean>().Value()`; `none` when the value is not a boolean. -/
def BoolValue : JsValue → Option Bool
  | boolean b => some b
  | _ => none

/-- Result of `As<Napi::Buffer<char>>()` followed by `Data()` / `Length()`; `none` when the
object is not a buffer. -/
def AsBuffer : JsValue → Option Buffer
  | buffer b => some b
  | _ => none

end JsValue

/-- The argument `info[i]` of a `Napi::CallbackInfo`: the i-th argument, `undefined` past the
end. -/
def arg (info : List JsValue) (i : Nat) : JsValue := info.getD i JsValue.undefined

/-! ## External calls and the operating-system oracle -/

/-- External calls recorded in program order. -/
inductive SysCall where
  | mmap (addr size : Nat) (protection flags fd : Int) (offset : Nat)
  | madvise (addr length : Nat) (advise : Int)
  | malloc (bytes : Nat)
  | mincore (addr length : Nat)
  | free
  | msync (addr length : Nat) (flags : Nat)
  | munmap (addr length : Nat)
deriving DecidableEq, Repr

namespace SysCall

def isMmap : SysCall → Bool
  | mmap .. => true
  | _ => false

def isMadvise : SysCall → Bool
  | madvise .. => true
  | _ => false

def isMunmap : SysCall → Bool
  | munmap .. => true
  | _ => false

def isMsync : SysCall → Bool
  | msync .. => true
  | _ => false

end SysCall

/-- What a `mincore` call leaves behind: return value, `errno`, and the content of the status
vector (`vec i` is the byte at index `i` of `result_data`). -/
structure MincoreResult where
  ret : Int
  errno : Int
  vec : Nat → Nat

/-- Responses of the environment. `mmap` gives the returned pointer and `errno`; `madvise` and
`msync` give the return value and `errno`; `pagesize` is `sysconf(_SC_PAGESIZE)` as a `size_t`;
`bufferNew` tells whether `Napi::Buffer<char>::New` produced a non-empty object. -/
structure OS where
  mmap : Nat → Nat → Int → Int → Int → Nat → Nat × Int
  madvise : Nat → Nat → Int → Int × Int
  mincore : Nat → Nat → MincoreResult
  msync : Nat → Nat → Nat → Int × Int
  pagesize : Nat
  bufferNew : Bool

/-- How an entry point completes: a returned value, a JavaScript exception with a message
(the function then returns `env.Null()`), or a failure raised by an N-API accessor applied
to a value of the wrong kind. -/
inductive Completion where
  | value (v : JsValue)
  | thrown (message : String)
  | napiError
deriving DecidableEq, Repr

/-- External calls issued by an entry point and its completion. -/
structure Outcome where
  calls : List SysCall
  result : Completion
deriving DecidableEq, Repr

/-! ## `do_mmap_cleanup` and `do_mmap_advice` -/

/-- The finalizer `do_mmap_cleanup(env, data, hint)`: one `munmap(data, hint->size)`. -/
def do_mmap_cleanup (data : Nat) (hint : MMap) : List SysCall :=
  [SysCall.munmap data hint.size]

/-- Calls issued when the buffer is finalized: the registered finalizer, if any. -/
def finalize (b : Buffer) : List SysCall :=
  match b.hint with
  | some h => do_mmap_cleanup b.data h
  | none => []

/-- The wrapper `do_mmap_advice(addr, length, advise)`: the call it issues and what `madvise`
answered. -/
def do_mmap_advice (os : OS) (addr length : Nat) (advise : Int) : SysCall × (Int × Int) :=
  (SysCall.madvise addr length advise, os.madvise addr length advise)

/-! ## `mmap_incore` -/

/-- The expression `(size + page_size - 1) / page_size` in `size_t` arithmetic. -/
def needed_bytes (size page_size : Nat) : Nat :=
  sizeSub (sizeAdd size page_size) 1 / page_size

/-- The variable `pages` after `pages = size / page_size; if (size % page_size > 0) pages++`. -/
def pages (size page_size : Nat) : Nat :=
  if size % page_size > 0 then sizeAdd (size / page_size) 1 else size / page_size

/-- One iteration of the counting loop on the state `(pages_mapped, pages_unmapped)`. -/
def countStep (result_data : Nat → Nat) (st : Nat × Nat) (i : Nat) : Nat × Nat :=
  if result_data i &&& 1 = 0 then (st.1, u32Incr st.2) else (u32Incr st.1, st.2)

/-- The loop `for (size_t i = 0; i < pages; i++)`, from `(0, 0)`. -/
def countPages (result_data : Nat → Nat) (n : Nat) : Nat × Nat :=
  (List.range n).foldl (countStep result_data) (0, 0)

/-- The external calls of `mmap_incore` once the buffer is known: the status vector is
allocated, `mincore` is called on the whole buffer, the vector is freed. -/
def incoreCalls (os : OS) (buf : Buffer) : List SysCall :=
  [SysCall.malloc (needed_bytes buf.length os.pagesize),
   SysCall.mincore buf.data buf.length, SysCall.free]

def mmap_incore (os : OS) (info : List JsValue) : Outcome :=
  if info.length ≠ 1 then
    ⟨[], .thrown "incore() takes 1 argument: (buffer :Buffer) ."⟩
  else if !(arg info 0).IsObject then
    ⟨[], .thrown "advice(): buffer (arg[0]) must be a Buffer"⟩
  else
    match (arg info 0).AsBuffer with
    | none => ⟨[], .napiError⟩
    | some buf =>
      let data := buf.data
      let size := buf.length
      let page_size := os.pagesize
      let npages := pages size page_size
      let r := os.mincore data size
      let calls := incoreCalls os buf
      if r.ret ≠ 0 then
        if r.errno = ENOSYS then
          ⟨calls, .thrown "mincore() not implemented"⟩
        else
          ⟨calls, .thrown ("mincore() failed, " ++ toString r.errno)⟩
      else
        let counters := countPages r.vec npages
        let pages_mapped := counters.1
        let pages_unmapped := counters.2
        ⟨calls, .value (.array [(pages_unmapped : Int), (pages_mapped : Int)])⟩

/-! ## `mmap_map` -/

/-- The tail of `mmap_map` after the advice step: build the `MMap` record and the buffer with
`do_mmap_cleanup` registered on it. -/
def mapFinish (os : OS) (calls : List SysCall) (data size : Nat) : Outcome :=
  let map_info : MMap := ⟨data, size⟩
  if os.bufferNew then
    ⟨calls, .value (.buffer ⟨data, size, some map_info⟩)⟩
  else
    ⟨calls, .thrown "couldn't allocate Node Buffer()"⟩

/-- The locals of `mmap_map` read from the arguments: `size`, `protection`, `flags`, `fd`,
`offset` (0 when `info[4]` is undefined) and `advise` (0 when `info[5]` is undefined). -/
structure MapArgs where
  size : Nat
  protection : Int
  flags : Int
  fd : Int
  offset : Nat
  advise : Int
deriving DecidableEq, Repr

/-- The argument conversions of `mmap_map`; `none` when an accessor is applied to a value
that is not a number. -/
def mapArgs (info : List JsValue) : Option MapArgs :=
  match (arg info 0).Int64Value, (arg info 1).Int32Value, (arg info 2).Int32Value,
      (arg info 3).Int32Value,
      (if (arg info 4).IsUndefined then some 0 else (arg info 4).Int64Value),
      (if (arg info 5).IsUndefined then some 0 else (arg info 5).Int32Value) with
  | some size64, some protection, some flags, some fd, some offset64, some advise =>
    some ⟨toSizeT size64, protection, flags, fd, toSizeT offset64, advise⟩
  | _, _, _, _, _, _ => none

/-- The call `mmap(hinted_address, size, protection, flags, fd, offset)` of `mmap_map`, with
`hinted_address = nullptr`. -/
def mmapCall (a : MapArgs) : SysCall :=
  SysCall.mmap 0 a.size a.protection a.flags a.fd a.offset

/-- What the operating system answers to that call: the pointer and `errno`. -/
def mmapRet (os : OS) (a : MapArgs) : Nat × Int :=
  os.mmap 0 a.size a.protection a.flags a.fd a.offset

def mmap_map (os : OS) (info : List JsValue) : Outcome :=
  if info.length < 4 ∧ info.length > 6 then
    ⟨[], .thrown "map() takes 4, 5 or 6 arguments: (size :int, protection :int, flags :int, fd :int [, offset :int [, advise :int]])."⟩
  else if !(arg info 0).IsNumber then
    ⟨[], .thrown "mmap: size (arg[0]) must be an integer"⟩
  else if !(arg info 1).IsNumber then
    ⟨[], .thrown "mmap: protection_flags (arg[1]) must be an integer"⟩
  else if !(arg info 2).IsNumber then
    ⟨[], .thrown "mmap: flags (arg[2]) must be an integer"⟩
  else if !(arg info 3).IsNumber then
    ⟨[], .thrown "mmap: fd (arg[3]) must be an integer (a file descriptor)"⟩
  else
    match mapArgs info with
    | none => ⟨[], .napiError⟩
    | some a =>
      let m := mmapRet os a
      let data := m.1
      if data = MAP_FAILED then
        ⟨[mmapCall a], .thrown ("mmap failed, " ++ toString m.2)⟩
      else if a.advise ≠ 0 then
        let r := do_mmap_advice os data a.size a.advise
        if r.2.1 ≠ 0 then
          ⟨[mmapCall a, r.1], .thrown ("madvise() failed, " ++ toString r.2.2)⟩
        else
          mapFinish os [mmapCall a, r.1] data a.size
      else
        mapFinish os [mmapCall a] data a.size

/-! ## `mmap_advise` -/

def mmap_advise (os : OS) (info : List JsValue) : Outcome :=
  if info.length ≠ 2 ∧ info.length ≠ 4 then
    ⟨[], .thrown "advise() takes 2 or 4 arguments: (buffer :Buffer, advise :int) | (buffer :Buffer, offset :int, length :int, advise :int)."⟩
  else if !(arg info 0).IsObject then
    ⟨[], .thrown "advice(): buffer (arg[0]) must be a Buffer"⟩
  else if !(arg info 1).IsNumber then
    ⟨[], .thrown "advice(): (arg[1]) must be an integer"⟩
  else
    match (arg info 0).AsBuffer with
    | none => ⟨[], .napiError⟩
    | some buf =>
      let data := buf.data
      let size := buf.length
      let r : Option (SysCall × (Int × Int)) :=
        if info.length = 2 then
          match (arg info 1).Int32Value with
          | some advise => some (do_mmap_advice os data size advise)
          | none => none
        else
          match (arg info 1).Int32Value, (arg info 2).Int32Value, (arg info 3).Int32Value with
          | some offset, some length, some advise =>
            some (do_mmap_advice os (ptrAdd data offset) (toSizeT length) advise)
          | _, _, _ => none
      match r with
      | none => ⟨[], .napiError⟩
      | some (call, ret, errno) =>
        if ret ≠ 0 then
          ⟨[call], .thrown ("madvise() failed, " ++ toString errno)⟩
        else
          ⟨[call], .value .undefined⟩

/-! ## `mmap_sync_lib_private_` -/

/-- The flags word `(blocking_sync ? MS_SYNC : MS_ASYNC) | (invalidate ? MS_INVALIDATE : 0)`. -/
def syncFlags (blocking_sync invalidate : Bool) : Nat :=
  (if blocking_sync then MS_SYNC else MS_ASYNC) ||| (if invalidate then MS_INVALIDATE else 0)

def mmap_sync_lib_private_ (os : OS) (info : List JsValue) : Outcome :=
  if info.length ≠ 5 then
    ⟨[], .thrown "sync() takes 5 arguments: (buffer :Buffer, offset :int, length :int, do_blocking_sync :bool, invalidate_pages_and_signal_refresh_to_consumers :bool)."⟩
  else if !(arg info 0).IsObject then
    ⟨[], .thrown "sync(): buffer (arg[0]) must be a Buffer"⟩
  else
    match (arg info 0).AsBuffer,
        (if (arg info 1).IsUndefined then some 0 else (arg info 1).Int32Value),
        (if (arg info 2).IsUndefined then some 0 else (arg info 2).Int32Value),
        (if (arg info 3).IsUndefined then some false else (arg info 3).BoolValue),
        (if (arg info 4).IsUndefined then some false else (arg info 4).BoolValue) with
    | some buf, some offset, some length32, some blocking_sync, some invalidate =>
      let data := buf.data
      let length := toSizeT length32
      let flags := syncFlags blocking_sync invalidate
      let r := os.msync (ptrAdd data offset) length flags
      let msyncCall := SysCall.msync (ptrAdd data offset) length flags
      if r.1 ≠ 0 then
        ⟨[msyncCall], .thrown ("msync() failed, " ++ toString r.2)⟩
      else
        ⟨[msyncCall], .value .undefined⟩
    | _, _, _, _, _ => ⟨[], .napiError⟩

/-! ## Sample environments -/

/-- An environment in which every call succeeds: `mmap` maps at `0x10000` (and refuses
lengths of `2 ^ 62` bytes or more with `ENOMEM`), pages are 4096 bytes, even-numbered pages
are resident. -/
def osSample : OS where
  mmap := fun _ size _ _ _ _ => if size < 2 ^ 62 then (65536, 0) else (MAP_FAILED, 12)
  madvise := fun _ _ _ => (0, 0)
  mincore := fun _ _ => ⟨0, 0, fun i => if i % 2 = 0 then 1 else 254⟩
  msync := fun _ _ _ => (0, 0)
  pagesize := 4096
  bufferNew := true

/-- As `osSample`, but `madvise` fails with `EINVAL` (22). -/
def osAdviseFails : OS := { osSample with madvise := fun _ _ _ => (-1, 22) }

/-- As `osSample`, but `mincore` fails with `ENOMEM` (12). -/
def osMincoreFails : OS := { osSample with mincore := fun _ _ => ⟨-1, 12, fun _ => 0⟩ }

/-- As `osSample`, but `mincore` reports every page resident (status byte 1). -/
def osAllResident : OS := { osSample with mincore := fun _ _ => ⟨0, 0, fun _ => 1⟩ }

/-- As `osSample`, but `mincore` reports no page resident (status byte `0xFE`: bit 0 clear,
the other bits set). -/
def osNoneResident : OS := { osSample with mincore := fun _ _ => ⟨0, 0, fun _ => 254⟩ }

/-! # Theorems -/


/-! ## Page arithmetic -/

theorem pages_eq_div_add (S P : Nat) (hP : 0 < P) (hS : S < 2 ^ 64) :
    pages S P = S / P + (if S % P > 0 then 1 else 0) := by
  unfold pages sizeAdd SIZE_MOD
  split
  · rename_i h
    have h2 : 2 ≤ P := by
      by_contra hc
      have h1 : P = 1 := by omega
      rw [h1, Nat.mod_one] at h
      omega
    have : S / P ≤ S / 2 := Nat.div_le_div_left h2 (by norm_num)
    rw [Nat.mod_eq_of_lt]
    omega
  · rfl

theorem ceil_div_eq (S P : Nat) (hP : 0 < P) :
    ⌈(S : ℚ) / (P : ℚ)⌉₊ = S / P + (if S % P > 0 then 1 else 0) := by
  have hPq : (0 : ℚ) < P := by exact_mod_cast hP
  have hdm := Nat.div_add_mod S P
  have hlt := Nat.mod_lt S hP
  have hc := Nat.mul_comm P (S / P)
  split
  · rename_i h
    rw [Nat.ceil_eq_iff (Nat.succ_ne_zero _)]
    constructor
    · rw [lt_div_iff₀ hPq]
      have : (S / P) * P < S := by omega
      rw [Nat.succ_sub_one]
      exact_mod_cast this
    · rw [div_le_iff₀ hPq]
      have : S ≤ (S / P + 1) * P := by
        rw [Nat.add_mul]; omega
      exact_mod_cast this
  · rename_i h
    have h0 : S % P = 0 := by omega
    have hS : S = (S / P) * P := by omega
    have : (S : ℚ) / P = ((S / P : ℕ) : ℚ) := by
      rw [div_eq_iff (ne_of_gt hPq)]
      exact_mod_cast hS
    rw [this]; simp

theorem pages_eq_ceil (S P : Nat) (hP : 0 < P) (hS : S < 2 ^ 64) :
    pages S P = ⌈(S : ℚ) / (P : ℚ)⌉₊ := by
  rw [pages_eq_div_add S P hP hS, ceil_div_eq S P hP]

theorem u32Incr_mod (a : Nat) : u32Incr (a % UINT32_MOD) = (a + 1) % UINT32_MOD := by
  unfold u32Incr
  rw [Nat.add_mod, Nat.mod_mod, ← Nat.add_mod]

theorem land_one_eq_zero_iff (x : Nat) : x &&& 1 = 0 ↔ x.testBit 0 = false := by
  rw [Nat.and_one_is_mod, Nat.testBit_zero]
  cases Nat.mod_two_eq_zero_or_one x with
  | inl h => simp [h]
  | inr h => simp [h]

theorem foldl_countStep (vec : Nat → Nat) (p : Nat → Bool)
    (hp : ∀ i, vec i &&& 1 = 0 ↔ p i = false) (l : List Nat) (a b : Nat) :
    l.foldl (countStep vec) (a % UINT32_MOD, b % UINT32_MOD) =
      ((a + l.countP p) % UINT32_MOD, (b + l.countP (fun i => !p i)) % UINT32_MOD) := by
  induction l generalizing a b with
  | nil => simp
  | cons x xs ih =>
    rw [List.foldl_cons, List.countP_cons, List.countP_cons]
    cases hx : p x
    · have h0 : vec x &&& 1 = 0 := (hp x).2 hx
      have e : countStep vec (a % UINT32_MOD, b % UINT32_MOD) x
          = (a % UINT32_MOD, (b + 1) % UINT32_MOD) := by
        simp only [countStep, h0, if_true, u32Incr_mod]
      rw [e, ih]
      simp only [Bool.not_false, if_true, Bool.false_eq_true, if_false, Nat.add_zero]
      rw [Nat.add_assoc, Nat.add_comm 1]
    · have h0 : ¬ vec x &&& 1 = 0 := fun h => by
        have := (hp x).1 h
        rw [hx] at this
        exact Bool.noConfusion this
      have e : countStep vec (a % UINT32_MOD, b % UINT32_MOD) x
          = ((a + 1) % UINT32_MOD, b % UINT32_MOD) := by
        simp only [countStep, h0, if_false, u32Incr_mod]
      rw [e, ih]
      simp only [Bool.not_true, if_true, Bool.false_eq_true, if_false, Nat.add_zero]
      rw [Nat.add_assoc, Nat.add_comm 1]

/-- The loop leaves in `pages_mapped` the number of visited indices whose status byte has
bit 0 set, and in `pages_unmapped` the number of the others, each reduced modulo `2 ^ 32`. -/
theorem countPages_eq (vec : Nat → Nat) (n : Nat) :
    countPages vec n =
      ((List.range n).countP (fun i => (vec i).testBit 0) % UINT32_MOD,
       (List.range n).countP (fun i => !(vec i).testBit 0) % UINT32_MOD) := by
  have h := foldl_countStep vec (fun i => (vec i).testBit 0)
    (fun i => land_one_eq_zero_iff (vec i)) (List.range n) 0 0
  simp only [Nat.zero_add, Nat.zero_mod] at h
  exact h

theorem countP_add_countP_not (p : Nat → Bool) (l : List Nat) :
    l.countP p + l.countP (fun i => !p i) = l.length := by
  induction l with
  | nil => rfl
  | cons x xs ih =>
    simp only [List.countP_cons, List.length_cons]
    cases p x <;> simp <;> omega

theorem countP_le_range (p : Nat → Bool) (n : Nat) : (List.range n).countP p ≤ n := by
  have := List.countP_le_length p (l := List.range n)
  rwa [List.length_range] at this

/-! ## `mmap_incore` on a buffer -/

theorem mmap_incore_buffer (os : OS) (buf : Buffer) :
    mmap_incore os [.buffer buf] =
      if (os.mincore buf.data buf.length).ret ≠ 0 then
        if (os.mincore buf.data buf.length).errno = ENOSYS then
          ⟨incoreCalls os buf, .thrown "mincore() not implemented"⟩
        else
          ⟨incoreCalls os buf,
            .thrown ("mincore() failed, " ++ toString (os.mincore buf.data buf.length).errno)⟩
      else
        ⟨incoreCalls os buf, .value (.array
          [((countPages (os.mincore buf.data buf.length).vec
              (pages buf.length os.pagesize)).2 : Int),
           ((countPages (os.mincore buf.data buf.length).vec
              (pages buf.length os.pagesize)).1 : Int)])⟩ := rfl

theorem mmap_incore_ok (os : OS) (buf : Buffer)
    (hret : (os.mincore buf.data buf.length).ret = 0) :
    (mmap_incore os [.buffer buf]).result =
      .value (.array
        [((countPages (os.mincore buf.data buf.length).vec
            (pages buf.length os.pagesize)).2 : Int),
         ((countPages (os.mincore buf.data buf.length).vec
            (pages buf.length os.pagesize)).1 : Int)]) := by
  rw [mmap_incore_buffer, if_neg (not_not.mpr hret)]

theorem not_implemented_ne_failed (e : Int) :
    "mincore() not implemented" ≠ "mincore() failed, " ++ toString e := by
  intro h
  have := congrArg String.data h
  simp at this

/-- When every status byte is `c`, the loop counts all `n` pages on one side. -/
theorem countPages_const (c n : Nat) :
    countPages (fun _ => c) n =
      if c.testBit 0 then (n % UINT32_MOD, 0) else (0, n % UINT32_MOD) := by
  rw [countPages_eq]
  cases h : c.testBit 0 <;> simp [UINT32_MOD]

/-! ## Claims on `incore` -/

/-- C1 (as stated, refuted). A 16 TiB buffer (`2 ^ 44` bytes) with 4096-byte pages has
`2 ^ 32` pages; when all of them are resident the 32-bit counter wraps and `incore`
returns `[0, 0]`, whose sum is not `ceil(S / P) = 2 ^ 32`. -/
theorem incore_sum_counterexample :
    (mmap_incore osAllResident [.buffer ⟨4294967296, 2 ^ 44, none⟩]).result
        = .value (.array [0, 0]) ∧
      ⌈((2 ^ 44 : Nat) : ℚ) / ((osAllResident.pagesize : Nat) : ℚ)⌉₊ = 2 ^ 32 ∧
      (0 : Nat) + 0 ≠ 2 ^ 32 := by
  have hpages : pages (2 ^ 44) 4096 = 2 ^ 32 := by decide
  refine ⟨?_, ?_, by decide⟩
  · rw [mmap_incore_ok _ _ rfl]
    show Completion.value (.array
      [((countPages (fun _ => 1) (pages (2 ^ 44) 4096)).2 : Int),
       ((countPages (fun _ => 1) (pages (2 ^ 44) 4096)).1 : Int)]) = _
    rw [hpages, countPages_const]
    have h1 : Nat.testBit 1 0 = true := by decide
    have h2 : 2 ^ 32 % UINT32_MOD = 0 := by decide
    rw [h1, if_pos rfl, h2]
    rfl
  · rw [← pages_eq_ceil _ _ (by decide) (by decide)]
    exact hpages

/-- C1 (amended). For a buffer of length `S < 2 ^ 64`, a page size `P > 0` and any status
vector left by a successful `mincore`, `incore` returns two counters `u` (not resident) and
`m` (resident) whose sum is congruent to `ceil(S / P)` modulo `2 ^ 32`, and equal to
`ceil(S / P)` whenever `ceil(S / P) < 2 ^ 32`. -/
theorem incore_counters_sum (os : OS) (buf : Buffer) (hP : 0 < os.pagesize)
    (hS : buf.length < 2 ^ 64) (hret : (os.mincore buf.data buf.length).ret = 0) :
    ∃ u m : Nat,
      (mmap_incore os [.buffer buf]).result = .value (.array [(u : Int), (m : Int)]) ∧
      (u + m) % 2 ^ 32 = ⌈(buf.length : ℚ) / (os.pagesize : ℚ)⌉₊ % 2 ^ 32 ∧
      (⌈(buf.length : ℚ) / (os.pagesize : ℚ)⌉₊ < 2 ^ 32 →
        u + m = ⌈(buf.length : ℚ) / (os.pagesize : ℚ)⌉₊) := by
  refine ⟨_, _, mmap_incore_ok os buf hret, ?_⟩
  rw [← pages_eq_ceil _ _ hP hS, countPages_eq]
  generalize pages buf.length os.pagesize = n
  have hsum := countP_add_countP_not
    (fun i => ((os.mincore buf.data buf.length).vec i).testBit 0) (List.range n)
  rw [List.length_range] at hsum
  simp only [UINT32_MOD]
  constructor
  · omega
  · intro hn
    rw [Nat.mod_eq_of_lt (by omega), Nat.mod_eq_of_lt (by omega)]
    omega

/-- C1, instance: a buffer of 8193 bytes with 4096-byte pages in the sample environment. -/
theorem incore_counters_sum_witness :
    (0 < osSample.pagesize ∧ (8193 : Nat) < 2 ^ 64 ∧
        (osSample.mincore 65536 8193).ret = 0) ∧
      ∃ u m : Nat,
        (mmap_incore osSample [.buffer ⟨65536, 8193, none⟩]).result
          = .value (.array [(u : Int), (m : Int)]) ∧
        (u + m) % 2 ^ 32 = ⌈((8193 : Nat) : ℚ) / (osSample.pagesize : ℚ)⌉₊ % 2 ^ 32 ∧
        (⌈((8193 : Nat) : ℚ) / (osSample.pagesize : ℚ)⌉₊ < 2 ^ 32 →
          u + m = ⌈((8193 : Nat) : ℚ) / (osSample.pagesize : ℚ)⌉₊) :=
  ⟨⟨by decide, by decide, rfl⟩,
    incore_counters_sum osSample ⟨65536, 8193, none⟩ (by decide) (by decide) rfl⟩

/-- C2 (as stated, refuted). With `2 ^ 32` pages whose status byte is `0xFE` (bit 0 clear),
element 0 of the returned array is 0, not the number `2 ^ 32` of indices below
`ceil(S / P)` with bit 0 clear. -/
theorem incore_pair_counterexample :
    (mmap_incore osNoneResident [.buffer ⟨4294967296, 2 ^ 44, none⟩]).result
        = .value (.array [0, 0]) ∧
      ⌈((2 ^ 44 : Nat) : ℚ) / ((osNoneResident.pagesize : Nat) : ℚ)⌉₊ = 2 ^ 32 ∧
      (List.range (2 ^ 32)).countP
        (fun i => !((osNoneResident.mincore 4294967296 (2 ^ 44)).vec i).testBit 0) = 2 ^ 32 := by
  have hpages : pages (2 ^ 44) 4096 = 2 ^ 32 := by decide
  have h1 : Nat.testBit 254 0 = false := by decide
  refine ⟨?_, ?_, ?_⟩
  · rw [mmap_incore_ok _ _ rfl]
    show Completion.value (.array
      [((countPages (fun _ => 254) (pages (2 ^ 44) 4096)).2 : Int),
       ((countPages (fun _ => 254) (pages (2 ^ 44) 4096)).1 : Int)]) = _
    rw [hpages, countPages_const]
    have h2 : 2 ^ 32 % UINT32_MOD = 0 := by decide
    rw [h1, if_neg Bool.false_ne_true, h2]
    rfl
  · rw [← pages_eq_ceil _ _ (by decide) (by decide)]
    exact hpages
  · show (List.range (2 ^ 32)).countP (fun _ => !Nat.testBit 254 0) = 2 ^ 32
    rw [h1]
    simp only [Bool.not_false, List.countP_true, List.length_range]

/-- C2 (amended). A successful `incore` returns an array of exactly two elements,
(pages_not_resident, pages_resident): element 1 is the number of indices `i < ceil(S / P)`
whose status byte has bit 0 set and element 0 the number of those whose status byte has
bit 0 clear (whatever the other bits), each reduced modulo `2 ^ 32`; they are these numbers
themselves whenever `ceil(S / P) < 2 ^ 32`. -/
theorem incore_pair_counts (os : OS) (buf : Buffer) (hP : 0 < os.pagesize)
    (hS : buf.length < 2 ^ 64) (hret : (os.mincore buf.data buf.length).ret = 0) :
    (mmap_incore os [.buffer buf]).result = .value (.array
      [(((List.range ⌈(buf.length : ℚ) / (os.pagesize : ℚ)⌉₊).countP
          (fun i => !((os.mincore buf.data buf.length).vec i).testBit 0) % 2 ^ 32 : Nat) : Int),
       (((List.range ⌈(buf.length : ℚ) / (os.pagesize : ℚ)⌉₊).countP
          (fun i => ((os.mincore buf.data buf.length).vec i).testBit 0) % 2 ^ 32 : Nat) : Int)]) ∧
    (⌈(buf.length : ℚ) / (os.pagesize : ℚ)⌉₊ < 2 ^ 32 →
      (mmap_incore os [.buffer buf]).result = .value (.array
        [(((List.range ⌈(buf.length : ℚ) / (os.pagesize : ℚ)⌉₊).countP
            (fun i => !((os.mincore buf.data buf.length).vec i).testBit 0) : Nat) : Int),
         (((List.range ⌈(buf.length : ℚ) / (os.pagesize : ℚ)⌉₊).countP
            (fun i => ((os.mincore buf.data buf.length).vec i).testBit 0) : Nat) : Int)])) := by
  have hres := mmap_incore_ok os buf hret
  rw [pages_eq_ceil _ _ hP hS, countPages_eq] at hres
  simp only [UINT32_MOD] at hres
  refine ⟨hres, fun hn => ?_⟩
  rw [hres]
  have ha := countP_le_range (fun i => !((os.mincore buf.data buf.length).vec i).testBit 0)
    ⌈(buf.length : ℚ) / (os.pagesize : ℚ)⌉₊
  have hb := countP_le_range (fun i => ((os.mincore buf.data buf.length).vec i).testBit 0)
    ⌈(buf.length : ℚ) / (os.pagesize : ℚ)⌉₊
  rw [Nat.mod_eq_of_lt (lt_of_le_of_lt ha hn), Nat.mod_eq_of_lt (lt_of_le_of_lt hb hn)]

/-- C2, instance: a buffer of 8193 bytes with 4096-byte pages in the sample environment. -/
theorem incore_pair_counts_witness :
    (mmap_incore osSample [.buffer ⟨65536, 8193, none⟩]).result = .value (.array
      [(((List.range ⌈((8193 : Nat) : ℚ) / (osSample.pagesize : ℚ)⌉₊).countP
          (fun i => !((osSample.mincore 65536 8193).vec i).testBit 0) % 2 ^ 32 : Nat) : Int),
       (((List.range ⌈((8193 : Nat) : ℚ) / (osSample.pagesize : ℚ)⌉₊).countP
          (fun i => ((osSample.mincore 65536 8193).vec i).testBit 0) % 2 ^ 32 : Nat) : Int)]) :=
  (incore_pair_counts osSample ⟨65536, 8193, none⟩ (by decide) (by decide) rfl).1

/-- A value is returned only for a single buffer argument on which `mincore` succeeded. -/
theorem incore_value_only_on_success {os : OS} {info : List JsValue} {v : JsValue}
    (h : (mmap_incore os info).result = .value v) :
    ∃ buf : Buffer, info = [.buffer buf] ∧ (os.mincore buf.data buf.length).ret = 0 := by
  match info, h with
  | [], h => exact Completion.noConfusion h
  | _ :: _ :: _, h => exact Completion.noConfusion h
  | [x], h =>
    cases x with
    | buffer buf =>
      refine ⟨buf, rfl, ?_⟩
      by_contra hne
      rw [mmap_incore_buffer, if_pos hne] at h
      split at h <;> exact Completion.noConfusion h
    | _ => exact Completion.noConfusion h

/-- C7. When `mincore` fails, `incore` returns no value: with `errno = ENOSYS` it throws
"mincore() not implemented", with any other `errno` it throws "mincore() failed, " followed
by the error code; the two messages never coincide; and whatever the arguments, a value
(in particular the pair `[0, 0]`) is returned only when `mincore` returned 0. -/
theorem incore_mincore_failure (os : OS) (buf : Buffer)
    (hfail : (os.mincore buf.data buf.length).ret ≠ 0) :
    ((os.mincore buf.data buf.length).errno = ENOSYS →
      (mmap_incore os [.buffer buf]).result = .thrown "mincore() not implemented") ∧
    ((os.mincore buf.data buf.length).errno ≠ ENOSYS →
      (mmap_incore os [.buffer buf]).result =
        .thrown ("mincore() failed, " ++ toString (os.mincore buf.data buf.length).errno)) ∧
    (∀ e : Int, "mincore() not implemented" ≠ "mincore() failed, " ++ toString e) ∧
    (∀ v : JsValue, (mmap_incore os [.buffer buf]).result ≠ .value v) ∧
    (∀ (info : List JsValue) (v : JsValue), (mmap_incore os info).result = .value v →
      ∃ b : Buffer, info = [.buffer b] ∧ (os.mincore b.data b.length).ret = 0) := by
  refine ⟨fun h => ?_, fun h => ?_, not_implemented_ne_failed, fun v hv => ?_,
    fun info v hv => incore_value_only_on_success hv⟩
  · rw [mmap_incore_buffer, if_pos hfail, if_pos h]
  · rw [mmap_incore_buffer, if_pos hfail, if_neg h]
  · obtain ⟨b, hb, hret⟩ := incore_value_only_on_success hv
    have e : buf = b := JsValue.buffer.inj (List.head_eq_of_cons_eq hb)
    subst e
    exact hfail hret

/-- C7, instance: `mincore` fails with `ENOMEM` and `incore` throws "mincore() failed, 12". -/
theorem incore_mincore_failure_witness :
    (osMincoreFails.mincore 65536 8193).ret ≠ 0 ∧
      (mmap_incore osMincoreFails [.buffer ⟨65536, 8193, none⟩]).result
        = .thrown "mincore() failed, 12" :=
  ⟨by decide,
    (incore_mincore_failure osMincoreFails ⟨65536, 8193, none⟩ (by decide)).2.1 (by decide)⟩

theorem isNumber_of_Int64Value {v : JsValue} {x : Int} (h : v.Int64Value = some x) :
    v.IsNumber = true := by
  cases v <;> first | rfl | exact Option.noConfusion h

theorem isNumber_of_Int32Value {v : JsValue} {x : Int} (h : v.Int32Value = some x) :
    v.IsNumber = true := by
  cases v <;> first | rfl | exact Option.noConfusion h

/-- What `mapArgs info = some a` says about each local. -/
theorem mapArgs_fields {info : List JsValue} {a : MapArgs} (h : mapArgs info = some a) :
    ∃ size64 offset64 : Int,
      (arg info 0).Int64Value = some size64 ∧ a.size = toSizeT size64 ∧
      (arg info 1).Int32Value = some a.protection ∧
      (arg info 2).Int32Value = some a.flags ∧
      (arg info 3).Int32Value = some a.fd ∧
      (if (arg info 4).IsUndefined then some 0 else (arg info 4).Int64Value) = some offset64 ∧
      a.offset = toSizeT offset64 ∧
      (if (arg info 5).IsUndefined then some 0 else (arg info 5).Int32Value) = some a.advise := by
  unfold mapArgs at h
  split at h
  · rename_i s p f d o ad h0 h1 h2 h3 h4 h5
    have e := Option.some.inj h
    subst e
    exact ⟨s, o, h0, rfl, h1, h2, h3, h4, rfl, h5⟩
  · exact Option.noConfusion h

theorem mmap_map_of_args (os : OS) (info : List JsValue) (a : MapArgs)
    (h : mapArgs info = some a) :
    mmap_map os info =
      if (mmapRet os a).1 = MAP_FAILED then
        ⟨[mmapCall a], .thrown ("mmap failed, " ++ toString (mmapRet os a).2)⟩
      else if a.advise ≠ 0 then
        if (os.madvise (mmapRet os a).1 a.size a.advise).1 ≠ 0 then
          ⟨[mmapCall a, SysCall.madvise (mmapRet os a).1 a.size a.advise],
            .thrown ("madvise() failed, " ++
              toString (os.madvise (mmapRet os a).1 a.size a.advise).2)⟩
        else
          mapFinish os [mmapCall a, SysCall.madvise (mmapRet os a).1 a.size a.advise]
            (mmapRet os a).1 a.size
      else
        mapFinish os [mmapCall a] (mmapRet os a).1 a.size := by
  obtain ⟨s, o, h0, _, h1, h2, h3, _⟩ := mapArgs_fields h
  have hlen : ¬ (info.length < 4 ∧ info.length > 6) := by omega
  unfold mmap_map
  rw [if_neg hlen]
  simp only [isNumber_of_Int64Value h0, isNumber_of_Int32Value h1, isNumber_of_Int32Value h2,
    isNumber_of_Int32Value h3, Bool.not_true, Bool.false_eq_true, if_false, h]
  rfl

/-- A returned value means that the arguments converted. -/
theorem mapArgs_of_value {os : OS} {info : List JsValue} {v : JsValue}
    (h : (mmap_map os info).result = .value v) : ∃ a, mapArgs info = some a := by
  cases hm : mapArgs info with
  | some a => exact ⟨a, rfl⟩
  | none =>
    exfalso
    unfold mmap_map at h
    simp only [hm] at h
    repeat' split at h
    all_goals exact Completion.noConfusion h

theorem mapFinish_calls (os : OS) (calls : List SysCall) (data size : Nat) :
    (mapFinish os calls data size).calls = calls := by
  unfold mapFinish
  split <;> rfl

/-- The guard `info.Length() < 4 && info.Length() > 6` never fires. -/
theorem map_arity_guard_dead (n : Nat) : ¬ (n < 4 ∧ n > 6) := by omega

/-- With fewer than four arguments `info[3]` is undefined, so one of the four kind checks
throws before any external call. -/
theorem map_too_few_arguments (os : OS) (info : List JsValue) (h : info.length < 4) :
    (mmap_map os info).calls = [] ∧ ∃ msg, (mmap_map os info).result = .thrown msg := by
  have h3 : (arg info 3).IsNumber = false := by
    unfold arg
    rw [List.getD_eq_default _ _ (by omega)]
    rfl
  unfold mmap_map
  rw [if_neg (map_arity_guard_dead _)]
  simp only [h3, Bool.not_false, if_true]
  repeat' split
  all_goals exact ⟨rfl, _, rfl⟩

theorem toSizeT_of_nonneg (z : Int) (h0 : 0 ≤ z) (h1 : z < 2 ^ 64) :
    ((toSizeT z : Nat) : Int) = z := by
  unfold toSizeT SIZE_MOD
  have e : ((2 ^ 64 : Nat) : Int) = 2 ^ 64 := by norm_num
  rw [e, Int.emod_eq_of_lt h0 h1, Int.toNat_of_nonneg h0]

theorem int32_of_range (n : Int) (h0 : -(2 ^ 31) ≤ n) (h1 : n < 2 ^ 31) :
    (JsValue.number n).Int32Value = some n := by
  show some ((n + 2 ^ 31) % 2 ^ 32 - 2 ^ 31) = some n
  rw [Int.emod_eq_of_lt (by omega) (by omega)]
  simp

theorem mapFinish_value {os : OS} {calls : List SysCall} {data size : Nat} {v : JsValue}
    (h : (mapFinish os calls data size).result = .value v) :
    v = .buffer ⟨data, size, some ⟨data, size⟩⟩ := by
  unfold mapFinish at h
  split at h
  · exact (Completion.value.inj h).symm
  · exact Completion.noConfusion h

/-- A returned value is the buffer over the mapped region, with the finalizer hint recording
the same address and size; the `mmap` call did not fail. -/
theorem map_value_buffer {os : OS} {info : List JsValue} {a : MapArgs} {v : JsValue}
    (ha : mapArgs info = some a) (h : (mmap_map os info).result = .value v) :
    (mmapRet os a).1 ≠ MAP_FAILED ∧
      v = .buffer ⟨(mmapRet os a).1, a.size, some ⟨(mmapRet os a).1, a.size⟩⟩ := by
  rw [mmap_map_of_args os info a ha] at h
  split at h
  · exact Completion.noConfusion h
  · rename_i hne
    refine ⟨hne, ?_⟩
    split at h
    · split at h
      · exact Completion.noConfusion h
      · exact mapFinish_value h
    · exact mapFinish_value h

theorem mmapCall_mem_calls {os : OS} {info : List JsValue} {a : MapArgs}
    (ha : mapArgs info = some a) : mmapCall a ∈ (mmap_map os info).calls := by
  rw [mmap_map_of_args os info a ha]
  repeat' split
  all_goals simp [mapFinish_calls]

/-! ## Claims on `map` -/

/-- Behaviour of `mmap_map` when the `mmap` call succeeds and the `madvise` call for a
non-zero advise fails: it throws "madvise() failed, " followed by the OS error code, the calls
issued are the `mmap` and the one `madvise`, and the function returns before the `MMap`
record and the buffer are built. -/
theorem map_advice_failure_trace (os : OS) (info : List JsValue) (a : MapArgs)
    (hargs : mapArgs info = some a) (hmap : (mmapRet os a).1 ≠ MAP_FAILED)
    (hadv : a.advise ≠ 0)
    (hfail : (os.madvise (mmapRet os a).1 a.size a.advise).1 ≠ 0) :
    (mmap_map os info).result =
        .thrown ("madvise() failed, " ++
          toString (os.madvise (mmapRet os a).1 a.size a.advise).2) ∧
      (∀ v : JsValue, (mmap_map os info).result ≠ .value v) ∧
      (mmap_map os info).calls =
        [mmapCall a, SysCall.madvise (mmapRet os a).1 a.size a.advise] ∧
      (∀ c ∈ (mmap_map os info).calls, c.isMunmap = false) := by
  rw [mmap_map_of_args os info a hargs, if_neg hmap, if_pos hadv, if_pos hfail]
  refine ⟨rfl, fun v h => Completion.noConfusion h, rfl, ?_⟩
  intro c hc
  simp only [List.mem_cons, List.mem_singleton, List.not_mem_nil, or_false] at hc
  rcases hc with hc | hc <;> rw [hc] <;> rfl

/-- C4 (failing input evaluated). `map(4096, 1, 1, 3, 0, 99)` where `mmap` succeeds at
`0x10000` and `madvise` rejects the advice code with `EINVAL`: the advice error is thrown
and no `munmap` is issued, as the claim says, but the call returns no buffer, so the
caller holds no handle whose release would unmap the region established by the `mmap`
call; the region is left mapped without an owner. -/
theorem map_advice_failure_drops_handle :
    (mmapRet osAdviseFails ⟨4096, 1, 1, 3, 0, 99⟩).1 = 65536 ∧
      (mmapRet osAdviseFails ⟨4096, 1, 1, 3, 0, 99⟩).1 ≠ MAP_FAILED ∧
      (osAdviseFails.madvise 65536 4096 99).1 ≠ 0 ∧
      (mmap_map osAdviseFails
          [.number 4096, .number 1, .number 1, .number 3, .number 0, .number 99]).calls =
        [SysCall.mmap 0 4096 1 1 3 0, SysCall.madvise 65536 4096 99] ∧
      (mmap_map osAdviseFails
          [.number 4096, .number 1, .number 1, .number 3, .number 0, .number 99]).result =
        .thrown "madvise() failed, 22" ∧
      ¬ ∃ b : Buffer,
        (mmap_map osAdviseFails
          [.number 4096, .number 1, .number 1, .number 3, .number 0, .number 99]).result =
          .value (.buffer b) := by
  refine ⟨by decide, by decide, by decide, by decide, by decide, ?_⟩
  rintro ⟨b, hb⟩
  have h : (mmap_map osAdviseFails
      [.number 4096, .number 1, .number 1, .number 3, .number 0, .number 99]).result =
        .thrown "madvise() failed, 22" := by decide
  rw [h] at hb
  exact Completion.noConfusion hb

/-- C5 (failing input evaluated). Seven numeric arguments are not rejected: the arity guard
is skipped, `mmap` is called and a buffer is returned. -/
theorem map_seven_arguments_reach_mmap :
    (mmap_map osSample
        [.number 4096, .number 1, .number 1, .number 3, .number 0, .number 0,
          .number 0]).calls = [SysCall.mmap 0 4096 1 1 3 0] ∧
      (mmap_map osSample
        [.number 4096, .number 1, .number 1, .number 3, .number 0, .number 0,
          .number 0]).result = .value (.buffer ⟨65536, 4096, some ⟨65536, 4096⟩⟩) := by
  decide

/-- C6 (as stated, refuted). The advise argument is supplied with the exposed code
`MADV_NORMAL`, `mmap` succeeds, and no `madvise` call is issued. -/
theorem map_advise_normal_counterexample :
    arg [.number 4096, .number 1, .number 1, .number 3, .number 0, .number MADV_NORMAL] 5
        = .number MADV_NORMAL ∧
      (mmapRet osSample ⟨4096, 1, 1, 3, 0, MADV_NORMAL⟩).1 ≠ MAP_FAILED ∧
      (mmap_map osSample
        [.number 4096, .number 1, .number 1, .number 3, .number 0,
          .number MADV_NORMAL]).calls = [SysCall.mmap 0 4096 1 1 3 0] ∧
      (mmap_map osSample
        [.number 4096, .number 1, .number 1, .number 3, .number 0,
          .number MADV_NORMAL]).calls.filter SysCall.isMadvise = [] := by
  decide

/-- C6 (amended). When the `mmap` call succeeds: if the advise argument is supplied with one
of the non-zero exposed codes (random, sequential, will-need, dont-need), `map` issues
exactly one `madvise` call, on (mapped address, size, advise); if no advise argument is
supplied, or it is supplied with the value 0 (`MADV_NORMAL`), `map` issues none. -/
theorem map_madvise_calls (os : OS) (info : List JsValue) (a : MapArgs)
    (hargs : mapArgs info = some a) (hmap : (mmapRet os a).1 ≠ MAP_FAILED) :
    (∀ c ∈ [MADV_RANDOM, MADV_SEQUENTIAL, MADV_WILLNEED, MADV_DONTNEED],
        arg info 5 = .number c →
        (mmap_map os info).calls.filter SysCall.isMadvise =
          [SysCall.madvise (mmapRet os a).1 a.size c]) ∧
      (arg info 5 = .undefined ∨ arg info 5 = .number MADV_NORMAL →
        (mmap_map os info).calls.filter SysCall.isMadvise = []) := by
  obtain ⟨s, o, _, _, _, _, _, _, _, h5⟩ := mapArgs_fields hargs
  rw [mmap_map_of_args os info a hargs, if_neg hmap]
  constructor
  · intro c hc h
    rw [h] at h5
    have hrange : -(2 ^ 31) ≤ c ∧ c < 2 ^ 31 ∧ c ≠ 0 := by
      simp only [List.mem_cons, List.mem_singleton, List.not_mem_nil, or_false,
        MADV_RANDOM, MADV_SEQUENTIAL, MADV_WILLNEED, MADV_DONTNEED] at hc
      omega
    rw [int32_of_range c hrange.1 hrange.2.1] at h5
    have hc' : a.advise = c := by
      simp only [JsValue.IsUndefined, Bool.false_eq_true, if_false] at h5
      exact (Option.some.inj h5).symm
    rw [hc', if_pos hrange.2.2]
    split
    · rfl
    · rw [mapFinish_calls]; rfl
  · intro h
    have h0 : a.advise = 0 := by
      rcases h with h | h
      · rw [h] at h5
        exact (Option.some.inj h5).symm
      · rw [h] at h5
        exact (Option.some.inj h5).symm
    rw [if_neg (not_not.mpr h0), mapFinish_calls]
    rfl

/-- C6, instance: `map` with advise `MADV_WILLNEED` issues one `madvise` on the mapped region. -/
theorem map_madvise_calls_witness :
    (mmap_map osSample
        [.number 4096, .number 1, .number 1, .number 3, .number 0,
          .number MADV_WILLNEED]).calls.filter SysCall.isMadvise =
      [SysCall.madvise 65536 4096 MADV_WILLNEED] :=
  (map_madvise_calls osSample
    [.number 4096, .number 1, .number 1, .number 3, .number 0, .number MADV_WILLNEED]
    ⟨4096, 1, 1, 3, 0, MADV_WILLNEED⟩ (by decide) (by decide)).1
    MADV_WILLNEED (by decide) (by decide)

/-- C9. In an environment whose `mmap` refuses lengths of `limit` bytes or more, for some
`limit` below `2 ^ 63`, every `map` call with size argument `size > 0` that returns a buffer
`b` has `b.length = size`, the buffer lies at the address the `mmap` call returned, and
finalizing the buffer issues exactly `munmap(address, size)`. -/
theorem map_handle_length_and_cleanup (os : OS) (info : List JsValue) (size : Int)
    (b : Buffer) (limit : Nat) (hlimit : limit < 2 ^ 63)
    (hos : ∀ addr sz prot fl fd off, limit ≤ sz → (os.mmap addr sz prot fl fd off).1 = MAP_FAILED)
    (hsize : arg info 0 = .number size) (hpos : 0 < size)
    (hok : (mmap_map os info).result = .value (.buffer b)) :
    ∃ a : MapArgs, mapArgs info = some a ∧ mmapCall a ∈ (mmap_map os info).calls ∧
      (mmapRet os a).1 ≠ MAP_FAILED ∧
      ((b.length : Nat) : Int) = size ∧
      b.data = (mmapRet os a).1 ∧
      finalize b = [SysCall.munmap (mmapRet os a).1 size.toNat] := by
  obtain ⟨a, ha⟩ := mapArgs_of_value hok
  obtain ⟨hne, hb⟩ := map_value_buffer ha hok
  have hb' : b = ⟨(mmapRet os a).1, a.size, some ⟨(mmapRet os a).1, a.size⟩⟩ :=
    JsValue.buffer.inj hb
  obtain ⟨s, o, h0, hs, _⟩ := mapArgs_fields ha
  rw [hsize] at h0
  have hs64 : s = if size < -(2 ^ 63) then -(2 ^ 63)
      else if 2 ^ 63 ≤ size then 2 ^ 63 - 1 else size :=
    (Option.some.inj h0).symm
  rw [if_neg (by omega)] at hs64
  have hlt : size < 2 ^ 63 := by
    by_contra hge
    have e : s = 2 ^ 63 - 1 := by
      rw [hs64, if_pos (by omega)]
    have e2 : a.size = 2 ^ 63 - 1 := by
      rw [hs, e]; decide
    exact hne (hos 0 a.size a.protection a.flags a.fd a.offset (by omega))
  have hs' : s = size := by
    rw [hs64, if_neg (by omega)]
  have hlen : ((a.size : Nat) : Int) = size := by
    rw [hs, hs']
    exact toSizeT_of_nonneg size (by omega) (by omega)
  refine ⟨a, ha, mmapCall_mem_calls ha, hne, ?_, ?_, ?_⟩
  · rw [hb']; exact hlen
  · rw [hb']
  · rw [hb']
    show [SysCall.munmap (mmapRet os a).1 a.size] = _
    rw [← hlen, Int.toNat_ofNat]

/-- C9, instance: `map(8192, 3, 1, 5)` in the sample environment returns the buffer of
length 8192 at `0x10000`, whose finalizer issues `munmap(0x10000, 8192)`. -/
theorem map_handle_length_and_cleanup_witness :
    (mmap_map osSample [.number 8192, .number 3, .number 1, .number 5]).result
        = .value (.buffer ⟨65536, 8192, some ⟨65536, 8192⟩⟩) ∧
      ∃ a : MapArgs,
        mapArgs [.number 8192, .number 3, .number 1, .number 5] = some a ∧
        mmapCall a ∈ (mmap_map osSample [.number 8192, .number 3, .number 1, .number 5]).calls ∧
        (mmapRet osSample a).1 ≠ MAP_FAILED ∧
        (((⟨65536, 8192, some ⟨65536, 8192⟩⟩ : Buffer).length : Nat) : Int) = 8192 ∧
        (⟨65536, 8192, some ⟨65536, 8192⟩⟩ : Buffer).data = (mmapRet osSample a).1 ∧
        finalize ⟨65536, 8192, some ⟨65536, 8192⟩⟩ =
          [SysCall.munmap (mmapRet osSample a).1 (8192 : Int).toNat] :=
  ⟨by decide,
    map_handle_length_and_cleanup osSample [.number 8192, .number 3, .number 1, .number 5]
      8192 ⟨65536, 8192, some ⟨65536, 8192⟩⟩ (2 ^ 62) (by decide)
      (fun _ sz _ _ _ _ h => by
        show (if sz < 2 ^ 62 then ((65536 : Nat), (0 : Int)) else (MAP_FAILED, 12)).1 = MAP_FAILED
        rw [if_neg (by omega)])
      (by decide) (by decide) (by decide)⟩

/-! ## Claims on `advise` -/

theorem mmap_advise_two (os : OS) (buf : Buffer) (advice : Int) :
    mmap_advise os [.buffer buf, .number advice] =
      match (JsValue.number advice).Int32Value with
      | some advise =>
        if (os.madvise buf.data buf.length advise).1 ≠ 0 then
          ⟨[SysCall.madvise buf.data buf.length advise],
            .thrown ("madvise() failed, " ++ toString (os.madvise buf.data buf.length advise).2)⟩
        else ⟨[SysCall.madvise buf.data buf.length advise], .value .undefined⟩
      | none => ⟨[], .napiError⟩ := rfl

theorem mmap_advise_four (os : OS) (buf : Buffer) (offset length advice : Int) :
    mmap_advise os [.buffer buf, .number offset, .number length, .number advice] =
      match (JsValue.number offset).Int32Value, (JsValue.number length).Int32Value,
          (JsValue.number advice).Int32Value with
      | some off, some len, some advise =>
        if (os.madvise (ptrAdd buf.data off) (toSizeT len) advise).1 ≠ 0 then
          ⟨[SysCall.madvise (ptrAdd buf.data off) (toSizeT len) advise],
            .thrown ("madvise() failed, " ++
              toString (os.madvise (ptrAdd buf.data off) (toSizeT len) advise).2)⟩
        else ⟨[SysCall.madvise (ptrAdd buf.data off) (toSizeT len) advise], .value .undefined⟩
      | _, _, _ => ⟨[], .napiError⟩ := rfl

theorem ptrAdd_of_range (p : Nat) (off : Int) (h0 : 0 ≤ (p : Int) + off)
    (h1 : (p : Int) + off < 2 ^ 64) : ptrAdd p off = ((p : Int) + off).toNat := by
  unfold ptrAdd SIZE_MOD
  have e : ((2 ^ 64 : Nat) : Int) = 2 ^ 64 := by norm_num
  rw [e, Int.emod_eq_of_lt h0 h1]

theorem toSizeT_toNat (z : Int) (h0 : 0 ≤ z) (h1 : z < 2 ^ 64) : toSizeT z = z.toNat := by
  unfold toSizeT SIZE_MOD
  have e : ((2 ^ 64 : Nat) : Int) = 2 ^ 64 := by norm_num
  rw [e, Int.emod_eq_of_lt h0 h1]

/-- Behaviour of `mmap_advise` on arguments that fit a 32-bit `int` (length non-negative,
`A + offset` inside the address space): one `madvise` call, `madvise(A, L, advice)` for
(buffer, advice) and `madvise(A + offset, length, advice)` for (buffer, offset, length,
advice); it throws "madvise() failed, " followed by the OS error code if `madvise` returns
non-zero and returns undefined otherwise. -/
theorem advise_in_int_range (os : OS) (buf : Buffer) (offset length advice : Int)
    (hadv : -(2 ^ 31) ≤ advice ∧ advice < 2 ^ 31)
    (hoff : -(2 ^ 31) ≤ offset ∧ offset < 2 ^ 31)
    (hlen : 0 ≤ length ∧ length < 2 ^ 31)
    (haddr : 0 ≤ (buf.data : Int) + offset ∧ (buf.data : Int) + offset < 2 ^ 64) :
    (mmap_advise os [.buffer buf, .number advice]).calls =
        [SysCall.madvise buf.data buf.length advice] ∧
      (mmap_advise os [.buffer buf, .number advice]).result =
        (if (os.madvise buf.data buf.length advice).1 ≠ 0 then
          .thrown ("madvise() failed, " ++ toString (os.madvise buf.data buf.length advice).2)
        else .value .undefined) ∧
      (mmap_advise os [.buffer buf, .number offset, .number length, .number advice]).calls =
        [SysCall.madvise ((buf.data : Int) + offset).toNat length.toNat advice] ∧
      (mmap_advise os [.buffer buf, .number offset, .number length, .number advice]).result =
        (if (os.madvise ((buf.data : Int) + offset).toNat length.toNat advice).1 ≠ 0 then
          .thrown ("madvise() failed, " ++
            toString (os.madvise ((buf.data : Int) + offset).toNat length.toNat advice).2)
        else .value .undefined) := by
  rw [mmap_advise_two, mmap_advise_four, int32_of_range advice hadv.1 hadv.2,
    int32_of_range offset hoff.1 hoff.2, int32_of_range length (by omega) hlen.2]
  simp only []
  rw [ptrAdd_of_range _ _ haddr.1 haddr.2, toSizeT_toNat length hlen.1 (by omega)]
  refine ⟨?_, ?_, ?_, ?_⟩ <;> split <;> rfl

/-- C8 (failing input evaluated). On a 3 GiB buffer at address `2 ^ 32`, the sub-range call
`advise(buffer, 2 ^ 31, 4096, MADV_WILLNEED)` (offset 2 GiB, inside the buffer) issues
`madvise(2 ^ 32 - 2 ^ 31, 4096, MADV_WILLNEED)`: the offset was read through `Int32Value`
into an `int`, so the address advised lies below the buffer and is not `A + offset`. -/
theorem advise_offset_two_gib_below_buffer :
    (2147483648 : Nat) < 3221225472 ∧
      (mmap_advise osSample
        [.buffer ⟨4294967296, 3221225472, none⟩, .number 2147483648, .number 4096,
          .number MADV_WILLNEED]).calls =
        [SysCall.madvise 2147483648 4096 MADV_WILLNEED] ∧
      (2147483648 : Nat) < 4294967296 ∧
      SysCall.madvise 2147483648 4096 MADV_WILLNEED ≠
        SysCall.madvise (4294967296 + 2147483648) 4096 MADV_WILLNEED := by
  decide

/-! ## Claims on `sync` -/

theorem syncFlags_bits (blocking invalidate : Bool) :
    (syncFlags blocking invalidate &&& MS_SYNC ≠ 0 ↔ blocking = true) ∧
      (syncFlags blocking invalidate &&& MS_ASYNC ≠ 0 ↔ blocking = false) ∧
      (syncFlags blocking invalidate &&& MS_INVALIDATE ≠ 0 ↔ invalidate = true) := by
  cases blocking <;> cases invalidate <;> decide

/-- The boolean read from an optional boolean argument: `false` when it is undefined. -/
theorem optional_bool_cases (v : JsValue) (h : v = .undefined ∨ ∃ b, v = .boolean b) :
    ∃ b : Bool, (if v.IsUndefined then some false else v.BoolValue) = some b ∧
      (b = true ↔ v = .boolean true) := by
  rcases h with h | ⟨b, h⟩
  · subst h
    exact ⟨false, rfl, by decide⟩
  · subst h
    refine ⟨b, rfl, ?_⟩
    cases b <;> decide

theorem optional_int_cases (v : JsValue) (h : v = .undefined ∨ v.IsNumber = true) :
    ∃ n : Int, (if v.IsUndefined then some 0 else v.Int32Value) = some n := by
  rcases h with h | h
  · subst h
    exact ⟨0, rfl⟩
  · cases v <;> first | exact ⟨_, rfl⟩ | exact Bool.noConfusion h

/-- C3. For every `sync` call on a buffer whose offset and length are numbers or omitted and
whose blocking and invalidate arguments are booleans or omitted, exactly one `msync` call
is issued and its flags word has the `MS_SYNC` bit set iff blocking is true, the `MS_ASYNC`
bit set iff blocking is not true (false or omitted), hence exactly one of the two, and
the `MS_INVALIDATE` bit set iff invalidate is true. -/
theorem sync_flags_word (os : OS) (buf : Buffer) (offset length blocking invalidate : JsValue)
    (hoff : offset = .undefined ∨ offset.IsNumber = true)
    (hlen : length = .undefined ∨ length.IsNumber = true)
    (hblk : blocking = .undefined ∨ ∃ b, blocking = .boolean b)
    (hinv : invalidate = .undefined ∨ ∃ b, invalidate = .boolean b) :
    ∃ addr len flags : Nat,
      (mmap_sync_lib_private_ os [.buffer buf, offset, length, blocking, invalidate]).calls
        = [SysCall.msync addr len flags] ∧
      (flags &&& MS_SYNC ≠ 0 ↔ blocking = .boolean true) ∧
      (flags &&& MS_ASYNC ≠ 0 ↔ blocking ≠ .boolean true) ∧
      ¬ (flags &&& MS_SYNC ≠ 0 ∧ flags &&& MS_ASYNC ≠ 0) ∧
      (flags &&& MS_SYNC ≠ 0 ∨ flags &&& MS_ASYNC ≠ 0) ∧
      (flags &&& MS_INVALIDATE ≠ 0 ↔ invalidate = .boolean true) := by
  obtain ⟨off, hoff'⟩ := optional_int_cases offset hoff
  obtain ⟨len, hlen'⟩ := optional_int_cases length hlen
  obtain ⟨b, hb, hbt⟩ := optional_bool_cases blocking hblk
  obtain ⟨i, hi, hit⟩ := optional_bool_cases invalidate hinv
  obtain ⟨fs, fa, fi⟩ := syncFlags_bits b i
  have hcalls : (mmap_sync_lib_private_ os [.buffer buf, offset, length, blocking, invalidate]).calls
      = [SysCall.msync (ptrAdd buf.data off) (toSizeT len) (syncFlags b i)] := by
    unfold mmap_sync_lib_private_
    simp only [arg, List.getD_cons_zero, List.getD_cons_succ, List.length_cons, List.length_nil,
      JsValue.IsObject, JsValue.AsBuffer, hoff', hlen', hb, hi]
    simp only [ne_eq, not_true_eq_false, if_false, Bool.not_true, Bool.false_eq_true]
    split <;> rfl
  refine ⟨_, _, _, hcalls, fs.trans hbt, ?_, ?_, ?_, fi.trans hit⟩
  · rw [fa, Ne, ← hbt]
    cases b <;> simp
  · rw [fs, fa]
    cases b <;> simp
  · rw [fs, fa]
    cases b <;> simp

/-- C3, instance: a blocking `sync` without invalidation passes exactly `MS_SYNC`. -/
theorem sync_flags_word_witness :
    (mmap_sync_lib_private_ osSample
        [.buffer ⟨65536, 8192, none⟩, .number 4096, .number 4096, .boolean true,
          .undefined]).calls = [SysCall.msync 69632 4096 MS_SYNC] ∧
      ∃ addr len flags : Nat,
        (mmap_sync_lib_private_ osSample
          [.buffer ⟨65536, 8192, none⟩, .number 4096, .number 4096, .boolean true,
            .undefined]).calls = [SysCall.msync addr len flags] ∧
        (flags &&& MS_SYNC ≠ 0 ↔ JsValue.boolean true = .boolean true) ∧
        (flags &&& MS_ASYNC ≠ 0 ↔ JsValue.boolean true ≠ .boolean true) ∧
        ¬ (flags &&& MS_SYNC ≠ 0 ∧ flags &&& MS_ASYNC ≠ 0) ∧
        (flags &&& MS_SYNC ≠ 0 ∨ flags &&& MS_ASYNC ≠ 0) ∧
        (flags &&& MS_INVALIDATE ≠ 0 ↔ JsValue.undefined = .boolean true) :=
  ⟨by decide,
    sync_flags_word osSample ⟨65536, 8192, none⟩ (.number 4096) (.number 4096) (.boolean true)
      .undefined (Or.inr rfl) (Or.inr rfl) (Or.inr ⟨true, rfl⟩) (Or.inl rfl)⟩

end MmapIo
